import Mathlib

/-!
# Verification of the shortlink data-access core

Shallow embedding of the repository's data-access layer:

* `PostgresRepo` (src/internal/repository/postgres.go): CRUD over the
  `users` table created by the SQL migration (SERIAL primary key, UNIQUE
  username and email, `created_at`/`updated_at` defaulting to NOW(), and a
  BEFORE UPDATE trigger setting `updated_at = NOW()`).
* `RedisRepo` (redis repository file bundled with the migration):
  `SetCache`/`GetCache`/`DeleteCache` over a key-value cache, JSON
  (de)serialization of records, and `GetUserCacheKey`.

The relational store is modelled as an explicit state (`DB`); the SQL
statements' semantics are given as Lean functions over that state.  Transport
(connection) failure of either backend is modelled by a boolean `conn`
parameter: `conn = true` means the backend is reachable, `conn = false`
models a transport/connection error returned by the driver.  The store clock
(`NOW()`) is a parameter of the mutating operations: it is evaluated by the
store at write time and never supplied by the caller.  Go errors built with
`fmt.Errorf` are modelled by `GoErr`: `%w` wrapping keeps the underlying
cause (so `errors.Is` can still distinguish error categories), plain
`fmt.Errorf` without `%w` has no cause.
-/

namespace Shortlink

/-- A row of the `users` table, as scanned into the Go struct
`repository.User` (src/internal/repository/postgres.go): id, username,
email, and the two timestamps (scanned as strings there).  JSON tags:
`id`, `username`, `email`, `created_at`, `updated_at`. -/
structure User where
  id : Int
  username : String
  email : String
  created_at : String
  updated_at : String
deriving DecidableEq, Repr

/-- State of the relational store: the rows of the `users` table and the
next value of the SERIAL `id` sequence (monotonic; never reused, since a
Postgres sequence is not rewound by DELETE or by a failed INSERT). -/
structure DB where
  users : List User
  nextId : Int
deriving Repr

/-- Underlying error causes of the Go libraries:
`sql.ErrNoRows` (database/sql), a `pq` unique-constraint violation
(SQLSTATE 23505 raised by the UNIQUE constraints on username/email),
`redis.Nil` is handled inline in `GetCache` and never escapes, a
transport/connection failure of either backend, and a
`json.Unmarshal` failure. -/
inductive BaseErr
  | sqlErrNoRows
  | uniqueViolation
  | connFailure
  | jsonUnmarshalErr
deriving DecidableEq, Repr

/-- A Go error as returned by the repository functions:
`GoErr.wrapped msg cause` models `fmt.Errorf(msg ++ ": %w", cause)` (the
cause stays reachable through `errors.Is`/`errors.As`), and
`GoErr.plain msg` models `fmt.Errorf` without `%w`. -/
inductive GoErr
  | wrapped (msg : String) (cause : BaseErr)
  | plain (msg : String)
deriving DecidableEq, Repr

/-- The cause chain a caller can inspect with `errors.Is`. -/
def GoErr.cause : GoErr → Option BaseErr
  | .wrapped _ c => some c
  | .plain _ => none

/-- Row selected by `SELECT ... FROM users WHERE id = $1` (the primary key
makes at most one row match; on a list state this is the first match). -/
def findUser (users : List User) (id : Int) : Option User :=
  users.find? (fun u => u.id == id)

/-- Whether an INSERT of (username, email) violates one of the UNIQUE
constraints of the `users` table. -/
def usernameOrEmailTaken (users : List User) (username email : String) : Bool :=
  users.any (fun u => u.username == username || u.email == email)

/-- `ORDER BY id` of the SQL query in `ListUsers`: the rows sorted by
identity ascending. -/
def sortById (users : List User) : List User :=
  users.mergeSort (fun a b => decide (a.id ≤ b.id))

/-- `PostgresRepo.GetUser`: `SELECT id, username, email, created_at,
updated_at FROM users WHERE id = $1` via `db.Get`; any error (including
`sql.ErrNoRows` when no row matches) is wrapped as
`"failed to retrieve user: %w"`. -/
def GetUser (db : DB) (conn : Bool) (id : Int) : Except GoErr User :=
  if !conn then .error (.wrapped "failed to retrieve user" .connFailure)
  else
    match findUser db.users id with
    | none => .error (.wrapped "failed to retrieve user" .sqlErrNoRows)
    | some u => .ok u

/-- `PostgresRepo.ListUsers`: `SELECT ... FROM users ORDER BY id LIMIT $1
OFFSET $2` via `db.Select`; OFFSET skips rows first, then LIMIT bounds the
result; an empty result set is returned as an empty slice, not an error.
Errors are wrapped as `"failed to retrieve user list: %w"`. -/
def ListUsers (db : DB) (conn : Bool) (limit offset : Nat) :
    Except GoErr (List User) :=
  if !conn then .error (.wrapped "failed to retrieve user list" .connFailure)
  else .ok (((sortById db.users).drop offset).take limit)

/-- `PostgresRepo.CreateUser`: `INSERT INTO users (username, email) VALUES
($1, $2) RETURNING ...`.  The SERIAL default draws the next sequence value
(consumed even when the INSERT then fails on a UNIQUE constraint), and
`created_at`/`updated_at` default to `NOW()` — the argument `now` is the
store clock at write time.  Errors are wrapped as
`"failed to create user: %w"`. -/
def CreateUser (db : DB) (conn : Bool) (username email : String)
    (now : String) : Except GoErr User × DB :=
  if !conn then (.error (.wrapped "failed to create user" .connFailure), db)
  else if usernameOrEmailTaken db.users username email then
    (.error (.wrapped "failed to create user" .uniqueViolation),
     { db with nextId := db.nextId + 1 })
  else
    let u : User :=
      { id := db.nextId, username := username, email := email,
        created_at := now, updated_at := now }
    (.ok u, { users := db.users ++ [u], nextId := db.nextId + 1 })

/-- `PostgresRepo.UpdateUser`: `UPDATE users SET username = $2, email = $3,
updated_at = NOW() WHERE id = $1 RETURNING ...` (the BEFORE UPDATE trigger
`update_modified_column` likewise sets `updated_at = NOW()`); `created_at`
is not in the SET list and is left unchanged.  When no row matches,
`StructScan` yields `sql.ErrNoRows`; a UNIQUE violation against another row
yields a conflict.  Errors are wrapped as `"failed to update user: %w"`. -/
def UpdateUser (db : DB) (conn : Bool) (id : Int) (username email : String)
    (now : String) : Except GoErr User × DB :=
  if !conn then (.error (.wrapped "failed to update user" .connFailure), db)
  else
    match findUser db.users id with
    | none => (.error (.wrapped "failed to update user" .sqlErrNoRows), db)
    | some u =>
      if db.users.any
          (fun v => v.id != id && (v.username == username || v.email == email))
      then
        (.error (.wrapped "failed to update user" .uniqueViolation), db)
      else
        let u2 : User :=
          { u with username := username, email := email, updated_at := now }
        (.ok u2,
         { db with users := db.users.map (fun v => if v.id == id then u2 else v) })

/-- Decimal digits of a natural number, most significant first: the model
of Go's `%d` formatting (`fmt.Sprintf`). -/
def natDecimal (n : Nat) : List Char :=
  if _h : n < 10 then [Nat.digitChar n]
  else natDecimal (n / 10) ++ [Nat.digitChar (n % 10)]
decreasing_by exact Nat.div_lt_self (by omega) (by omega)

/-- `fmt.Sprintf("%d", i)` for a signed integer: a minus sign followed by
the decimal digits of the magnitude when negative, the plain digits
otherwise. -/
def intDecimal (i : Int) : String :=
  if i < 0 then "-" ++ ⟨natDecimal (-i).toNat⟩ else ⟨natDecimal i.toNat⟩

/-- `PostgresRepo.DeleteUser`: `DELETE FROM users WHERE id = $1`; when
`RowsAffected` is 0 it returns the plain error
`fmt.Errorf("no user found with ID %d", id)` (no `%w`); driver errors are
wrapped. -/
def DeleteUser (db : DB) (conn : Bool) (id : Int) : Except GoErr Unit × DB :=
  if !conn then (.error (.wrapped "failed to delete user" .connFailure), db)
  else
    let remaining := db.users.filter (fun u => u.id != id)
    if remaining.length == db.users.length then
      (.error (.plain ("no user found with ID " ++ intDecimal id)), db)
    else
      (.ok (), { db with users := remaining })

/-- A JSON value, as far as the cached payloads need: strings, integers,
and objects (encoding/json marshals the `User` struct to an object whose
members are the struct's tagged fields). -/
inductive Json
  | str (s : String)
  | num (n : Int)
  | obj (fields : List (String × Json))

/-- `json.Marshal` on the `User` struct: an object with exactly the tagged
fields `id`, `username`, `email`, `created_at`, `updated_at`, in struct
order.  Marshalling of this struct never fails (all field types are
marshallable). -/
def marshalUser (u : User) : Json :=
  .obj [("id", .num u.id),
        ("username", .str u.username),
        ("email", .str u.email),
        ("created_at", .str u.created_at),
        ("updated_at", .str u.updated_at)]

/-- The member names of a JSON object. -/
def jsonFieldNames : Json → List String
  | .obj fields => fields.map Prod.fst
  | _ => []

/-- `json.Unmarshal` reading one struct field: an absent member leaves the
zero value, a member of the wrong type is an unmarshalling error. -/
def getStrField (fields : List (String × Json)) (k : String) : Option String :=
  match fields.lookup k with
  | none => some ""
  | some (.str s) => some s
  | some _ => none

/-- `json.Unmarshal` reading one integer struct field (same conventions as
`getStrField`). -/
def getIntField (fields : List (String × Json)) (k : String) : Option Int :=
  match fields.lookup k with
  | none => some 0
  | some (.num n) => some n
  | some _ => none

/-- `json.Unmarshal` into a `User` destination: the payload must be an
object; each tagged field is read by name. -/
def unmarshalUser : Json → Option User
  | .obj fields => do
    let id ← getIntField fields "id"
    let username ← getStrField fields "username"
    let email ← getStrField fields "email"
    let created_at ← getStrField fields "created_at"
    let updated_at ← getStrField fields "updated_at"
    some { id := id, username := username, email := email,
           created_at := created_at, updated_at := updated_at }
  | _ => none

/-- State of the Redis key-value cache: the live entries, keyed by string.
TTL expiry is the passage of time inside Redis, not behaviour of the code
under verification, so entries here are the not-yet-expired ones. -/
def Cache : Type := List (String × Json)

/-- Redis `SET key value`: overwrite any previous entry under the key. -/
def cacheSet (c : Cache) (key : String) (v : Json) : Cache :=
  (key, v) :: c.filter (fun e => e.1 != key)

/-- `RedisRepo.SetCache`: `json.Marshal` the value (which cannot fail for a
`User`), then `SET` it with the given expiration; a transport failure of
the `SET` is wrapped as `"Failed to set cache: %w"`. -/
def SetCache (c : Cache) (conn : Bool) (key : String) (value : User)
    (expiration : Nat) : Except GoErr Unit × Cache :=
  let data := marshalUser value
  let _ := expiration
  if !conn then (.error (.wrapped "Failed to set cache" .connFailure), c)
  else (.ok (), cacheSet c key data)

/-- `RedisRepo.GetCache`: `GET key` then `json.Unmarshal` into the
destination.  Go returns `(found, err)` with the value in an out-parameter;
here `.ok none` is `(false, nil)` (the `redis.Nil` branch: key absent, not
an error), `.ok (some u)` is `(true, nil)` with `u` in the destination, and
`.error e` is `(false, e)` (transport failure wrapped as
`"Failed to get cache: %w"`, or `"Failed to deserialize data: %w"` when the
payload does not unmarshal). -/
def GetCache (c : Cache) (conn : Bool) (key : String) :
    Except GoErr (Option User) :=
  if !conn then .error (.wrapped "Failed to get cache" .connFailure)
  else
    match c.lookup key with
    | none => .ok none
    | some data =>
      match unmarshalUser data with
      | none => .error (.wrapped "Failed to deserialize data" .jsonUnmarshalErr)
      | some u => .ok (some u)

/-- `RedisRepo.DeleteCache`: `DEL key`; Redis `DEL` succeeds whether or not
the key exists (it returns the count of removed keys, and `Err()` is nil),
so only a transport failure produces an error, wrapped as
`"Failed to delete cache: %w"`. -/
def DeleteCache (c : Cache) (conn : Bool) (key : String) :
    Except GoErr Unit × Cache :=
  if !conn then (.error (.wrapped "Failed to delete cache" .connFailure), c)
  else (.ok (), c.filter (fun e => e.1 != key))

/-- `GetUserCacheKey`: `fmt.Sprintf("user:%d", id)`. -/
def GetUserCacheKey (id : Int) : String :=
  "user:" ++ intDecimal id

/-! ## Helper lemmas -/

/-- A failed association-list lookup means no entry carries the key. -/
theorem lookup_eq_none_forall {β : Type} (c : List (String × β)) (key : String)
    (h : c.lookup key = none) : ∀ e ∈ c, (e.1 == key) = false := by
  induction c with
  | nil => intro e he; cases he
  | cons hd tl ih =>
    obtain ⟨k, v⟩ := hd
    rw [List.lookup] at h
    intro e he
    cases hbeq : key == k with
    | true =>
      exfalso
      rw [hbeq] at h
      cases h
    | false =>
      rw [hbeq] at h
      cases he with
      | head =>
        have hne : ¬key = k := by simpa using hbeq
        simp only [beq_eq_false_iff_ne, ne_eq]
        exact fun hk => hne hk.symm
      | tail _ htl => exact ih h e htl

/-- Deleting a key that no entry carries leaves the cache unchanged. -/
theorem filter_ne_key_eq_self {β : Type} (c : List (String × β)) (key : String)
    (h : c.lookup key = none) : c.filter (fun e => e.1 != key) = c := by
  apply List.filter_eq_self.mpr
  intro e he
  have := lookup_eq_none_forall c key h e he
  simp [bne, this]

/-! ## C1: GetCache distinguishes Miss from Unavailable -/

/-- C1: for every key absent from the cache, `GetCache` returns
`(found = false, err = nil)` (the Miss indication), while a
transport/connection failure returns a wrapped `Unavailable` error; and no
Miss result ever coincides with an Unavailable result. -/
theorem getCache_miss_ne_unavailable (c : Shortlink.Cache) (key : String)
    (h : c.lookup key = none) :
    Shortlink.GetCache c true key = .ok none ∧
    Shortlink.GetCache c false key =
      .error (.wrapped "Failed to get cache" .connFailure) ∧
    ∀ e : Shortlink.GoErr,
      (Except.ok none : Except Shortlink.GoErr (Option Shortlink.User)) ≠
        Except.error e := by
  refine ⟨?_, rfl, ?_⟩
  · simp [Shortlink.GetCache, h]
  · intro e hcontra
    cases hcontra

/-- Witness for C1 at the empty cache and key "user:1". -/
theorem getCache_miss_ne_unavailable_witness :
    Shortlink.GetCache [] true "user:1" = .ok none ∧
    Shortlink.GetCache [] false "user:1" =
      .error (.wrapped "Failed to get cache" .connFailure) ∧
    ∀ e : Shortlink.GoErr,
      (Except.ok none : Except Shortlink.GoErr (Option Shortlink.User)) ≠
        Except.error e :=
  getCache_miss_ne_unavailable [] "user:1" rfl

/-! ## C2: GetUser surfaces NotFound distinguishably -/

/-- C2: for an identity with no record, `GetUser` returns the
`sql.ErrNoRows` (NotFound) error wrapped with `%w`, so its cause is still
reachable by the caller via `errors.Is`; a connection failure yields a
wrapped error with a different cause, so the two are distinguishable. -/
theorem getUser_notFound_surfaced (db : Shortlink.DB) (id : Int)
    (h : Shortlink.findUser db.users id = none) :
    Shortlink.GetUser db true id =
      .error (.wrapped "failed to retrieve user" .sqlErrNoRows) ∧
    (Shortlink.GoErr.wrapped "failed to retrieve user"
        .sqlErrNoRows).cause = some .sqlErrNoRows ∧
    Shortlink.GetUser db false id =
      .error (.wrapped "failed to retrieve user" .connFailure) ∧
    (Shortlink.GoErr.wrapped "failed to retrieve user" .sqlErrNoRows).cause ≠
      (Shortlink.GoErr.wrapped "failed to retrieve user" .connFailure).cause := by
  refine ⟨?_, rfl, rfl, by decide⟩
  simp [Shortlink.GetUser, h]

/-- Witness for C2 at an empty store and identity 7. -/
theorem getUser_notFound_surfaced_witness :
    Shortlink.GetUser ⟨[], 1⟩ true 7 =
      .error (.wrapped "failed to retrieve user" .sqlErrNoRows) ∧
    (Shortlink.GoErr.wrapped "failed to retrieve user"
        .sqlErrNoRows).cause = some .sqlErrNoRows ∧
    Shortlink.GetUser ⟨[], 1⟩ false 7 =
      .error (.wrapped "failed to retrieve user" .connFailure) ∧
    (Shortlink.GoErr.wrapped "failed to retrieve user" .sqlErrNoRows).cause ≠
      (Shortlink.GoErr.wrapped "failed to retrieve user" .connFailure).cause :=
  getUser_notFound_surfaced ⟨[], 1⟩ 7 rfl

/-! ## C7: DeleteCache on an absent key succeeds -/

/-- C7: deleting an absent key from the cache is a success that leaves the
cache unchanged (Redis `DEL` reports no error for missing keys); only a
transport/connection failure produces an error. -/
theorem deleteCache_absent_success (c : Shortlink.Cache) (key : String)
    (h : c.lookup key = none) :
    Shortlink.DeleteCache c true key = (.ok (), c) ∧
    Shortlink.DeleteCache c false key =
      (.error (.wrapped "Failed to delete cache" .connFailure), c) := by
  have hf := filter_ne_key_eq_self c key h
  refine ⟨?_, rfl⟩
  simp [Shortlink.DeleteCache, hf]

/-- Witness for C7 at a one-entry cache and an absent key. -/
theorem deleteCache_absent_success_witness :
    Shortlink.DeleteCache [("user:1", .num 0)] true "user:2" =
      (.ok (), [("user:1", .num 0)]) ∧
    Shortlink.DeleteCache [("user:1", .num 0)] false "user:2" =
      (.error (.wrapped "Failed to delete cache" .connFailure),
       [("user:1", .num 0)]) :=
  deleteCache_absent_success [("user:1", .num 0)] "user:2" rfl

/-! ## C9: cache round-trip -/

/-- C9: storing a record with `SetCache` and reading the same key back with
`GetCache` succeeds and yields the stored record: JSON marshal followed by
unmarshal is the identity on the record's field set. -/
theorem setCache_getCache_roundtrip (c : Shortlink.Cache) (key : String)
    (u : Shortlink.User) (ttl : Nat) :
    Shortlink.unmarshalUser (Shortlink.marshalUser u) = some u ∧
    ∃ c2, Shortlink.SetCache c true key u ttl = (.ok (), c2) ∧
          Shortlink.GetCache c2 true key = .ok (some u) := by
  refine ⟨rfl, Shortlink.cacheSet c key (Shortlink.marshalUser u), rfl, ?_⟩
  simp only [Shortlink.GetCache, Shortlink.cacheSet, List.lookup,
    beq_self_eq_true, Bool.not_true, Bool.false_eq_true, if_false]
  rfl

/-! ## C4: CreateUser surfaces Conflict on unique violation -/

/-- C4: inserting a username or email already present hits the UNIQUE
constraint and `CreateUser` returns the wrapped unique-violation (Conflict)
error; creating the same pair twice from a state where it is free yields one
success and one Conflict; the Conflict cause is distinguishable from a
connection failure. -/
theorem createUser_conflict (db : Shortlink.DB)
    (username email now now2 : String) :
    (Shortlink.usernameOrEmailTaken db.users username email = true →
      (Shortlink.CreateUser db true username email now).1 =
        .error (.wrapped "failed to create user" .uniqueViolation)) ∧
    (Shortlink.usernameOrEmailTaken db.users username email = false →
      ∃ u db1, Shortlink.CreateUser db true username email now = (.ok u, db1) ∧
        u.username = username ∧ u.email = email ∧
        (Shortlink.CreateUser db1 true username email now2).1 =
          .error (.wrapped "failed to create user" .uniqueViolation)) ∧
    (Shortlink.GoErr.wrapped "failed to create user" .uniqueViolation).cause ≠
      (Shortlink.GoErr.wrapped "failed to create user" .connFailure).cause := by
  refine ⟨fun h => by simp [Shortlink.CreateUser, h], fun h => ?_, by decide⟩
  refine ⟨⟨db.nextId, username, email, now, now⟩,
    ⟨db.users ++ [⟨db.nextId, username, email, now, now⟩], db.nextId + 1⟩,
    ?_, rfl, rfl, ?_⟩
  · simp [Shortlink.CreateUser, h]
  · have htaken : Shortlink.usernameOrEmailTaken
        (db.users ++ [⟨db.nextId, username, email, now, now⟩])
        username email = true := by
      simp [Shortlink.usernameOrEmailTaken]
    simp [Shortlink.CreateUser, htaken]

/-- Witness for C4: a fresh store, creating ("alice", "a@x.com") twice. -/
theorem createUser_conflict_witness :
    Shortlink.usernameOrEmailTaken ([] : List Shortlink.User)
      "alice" "a@x.com" = false ∧
    (∃ u db1,
      Shortlink.CreateUser ⟨[], 1⟩ true "alice" "a@x.com" "t0" = (.ok u, db1) ∧
      u.username = "alice" ∧ u.email = "a@x.com" ∧
      (Shortlink.CreateUser db1 true "alice" "a@x.com" "t1").1 =
        .error (.wrapped "failed to create user" .uniqueViolation)) :=
  ⟨rfl, (createUser_conflict ⟨[], 1⟩ "alice" "a@x.com" "t0" "t1").2.1 rfl⟩

/-! ## C5: DeleteUser removes an existing record, NotFound otherwise -/

/-- C5: deleting an existing identity succeeds and removes exactly the rows
with that identity (the record is no longer found); deleting an absent
identity reports zero affected rows as the plain NotFound error and leaves
the store unchanged. -/
theorem deleteUser_spec (db : Shortlink.DB) (id : Int) :
    (Shortlink.findUser db.users id = none →
      Shortlink.DeleteUser db true id =
        (.error (.plain ("no user found with ID " ++ Shortlink.intDecimal id)),
         db)) ∧
    (∀ u, Shortlink.findUser db.users id = some u →
      ∃ db2, Shortlink.DeleteUser db true id = (.ok (), db2) ∧
        db2.users = db.users.filter (fun v => v.id != id) ∧
        Shortlink.findUser db2.users id = none) := by
  constructor
  · intro h
    have hall : ∀ v ∈ db.users, (v.id != id) = true := by
      intro v hv
      have := List.find?_eq_none.mp h v hv
      simpa [bne] using this
    have hfe : db.users.filter (fun v => v.id != id) = db.users :=
      List.filter_eq_self.mpr hall
    simp [Shortlink.DeleteUser, hfe]
  · intro u hu
    have hu2 : db.users.find? (fun v => v.id == id) = some u := hu
    have hmem : u ∈ db.users := List.mem_of_find?_eq_some hu2
    have hpu : (u.id == id) = true := by simpa using List.find?_some hu2
    have humem : u ∈ db.users.filter (fun v => !(v.id != id)) := by
      refine List.mem_filter.mpr ⟨hmem, ?_⟩
      simp [bne, hpu]
    have hsplit :=
      @List.length_eq_length_filter_add Shortlink.User db.users
        (fun v => v.id != id)
    have hpos : 0 < (db.users.filter (fun v => !(v.id != id))).length :=
      List.length_pos.mpr (List.ne_nil_of_mem humem)
    have hlt : (db.users.filter (fun v => v.id != id)).length <
        db.users.length := by omega
    have hne : ((db.users.filter (fun v => v.id != id)).length ==
        db.users.length) = false := by
      simp [Nat.ne_of_lt hlt]
    refine ⟨⟨db.users.filter (fun v => v.id != id), db.nextId⟩, ?_, rfl, ?_⟩
    · simp [Shortlink.DeleteUser, hne]
    · apply List.find?_eq_none.mpr
      intro v hv
      have := (List.mem_filter.mp hv).2
      simpa [bne] using this

/-- Witness for C5: a one-user store; deleting id 1 succeeds and empties
the store, then deleting id 1 again (or any absent id) is NotFound. -/
theorem deleteUser_spec_witness :
    (∃ db2, Shortlink.DeleteUser
        ⟨[⟨1, "alice", "a@x.com", "t0", "t0"⟩], 2⟩ true 1 = (.ok (), db2) ∧
      db2.users = List.filter (fun v => v.id != 1)
        [⟨1, "alice", "a@x.com", "t0", "t0"⟩] ∧
      Shortlink.findUser db2.users 1 = none) ∧
    Shortlink.DeleteUser ⟨[], 2⟩ true 1 =
      (.error (.plain ("no user found with ID " ++ Shortlink.intDecimal 1)),
       ⟨[], 2⟩) :=
  ⟨(deleteUser_spec ⟨[⟨1, "alice", "a@x.com", "t0", "t0"⟩], 2⟩ 1).2
      ⟨1, "alice", "a@x.com", "t0", "t0"⟩ rfl,
   (deleteUser_spec ⟨[], 2⟩ 1).1 rfl⟩

/-! ## C6: UpdateUser sets updated_at at the store, preserves created_at -/

/-- C6: a successful `UpdateUser` returns the record with `updated_at`
equal to the store clock at write time (`NOW()`, set both by the SET list
and by the `update_modified_column` trigger; the caller supplies only id,
username and email) and with `created_at` unchanged from the stored row;
moreover no mutation ever changes any surviving row's `created_at`: after
the update every row keeps the `created_at` of the row of the same identity
before it, `CreateUser` leaves pre-existing rows intact, and `DeleteUser`
only removes rows.  The primary key makes identities unique
(`hnodup`). -/
theorem updateUser_timestamps (db : Shortlink.DB) (id : Int)
    (username email now : String) (u : Shortlink.User)
    (hfind : Shortlink.findUser db.users id = some u)
    (hnoconf : db.users.any
      (fun v => v.id != id && (v.username == username || v.email == email)) =
      false)
    (hnodup : (db.users.map Shortlink.User.id).Nodup) :
    ∃ u2 db2,
      Shortlink.UpdateUser db true id username email now = (.ok u2, db2) ∧
      u2.updated_at = now ∧
      u2.created_at = u.created_at ∧
      u2.id = u.id ∧
      (∀ v ∈ db.users, ∃ v2 ∈ db2.users,
        v2.id = v.id ∧ v2.created_at = v.created_at) ∧
      (∀ (conn : Bool) (un em nw : String), ∀ v ∈ db.users,
        v ∈ ((Shortlink.CreateUser db conn un em nw).2).users) ∧
      (∀ (conn : Bool) (id2 : Int),
        ∀ v ∈ ((Shortlink.DeleteUser db conn id2).2).users, v ∈ db.users) := by
  have hu2 : db.users.find? (fun v => v.id == id) = some u := hfind
  have hmem : u ∈ db.users := List.mem_of_find?_eq_some hu2
  have hpu : (u.id == id) = true := by simpa using List.find?_some hu2
  have hpid : u.id = id := by simpa using hpu
  refine ⟨{ u with username := username, email := email, updated_at := now },
    ⟨db.users.map (fun v =>
      if v.id == id
      then { u with username := username, email := email, updated_at := now }
      else v), db.nextId⟩, ?_, rfl, rfl, rfl, ?_, ?_, ?_⟩
  · simp [Shortlink.UpdateUser, hfind, hnoconf]
  · intro v hv
    by_cases hvid : v.id = id
    · have hveq : v = u :=
        List.inj_on_of_nodup_map hnodup hv hmem (by rw [hvid, hpid])
      refine ⟨{ u with username := username, email := email, updated_at := now }, List.mem_map.mpr ⟨v, hv, by simp [hvid]⟩, by simp [hveq, hpid], by simp [hveq]⟩
    · exact ⟨v, List.mem_map.mpr ⟨v, hv, by simp [hvid]⟩, rfl, rfl⟩
  · intro conn un em nw v hv
    cases conn with
    | false => simpa [Shortlink.CreateUser] using hv
    | true =>
      by_cases ht : Shortlink.usernameOrEmailTaken db.users un em = true
      · simpa [Shortlink.CreateUser, ht] using hv
      · have ht2 : Shortlink.usernameOrEmailTaken db.users un em = false := by
          simpa using ht
        simp [Shortlink.CreateUser, ht2]
        exact Or.inl hv
  · intro conn id2 v hv
    cases conn with
    | false => simpa [Shortlink.DeleteUser] using hv
    | true =>
      simp only [Shortlink.DeleteUser, Bool.not_true, Bool.false_eq_true,
        if_false] at hv
      by_cases hlen : ((db.users.filter (fun w => w.id != id2)).length ==
          db.users.length) = true
      · rw [if_pos hlen] at hv
        exact hv
      · rw [if_neg hlen] at hv
        exact List.mem_of_mem_filter hv

/-- Witness for C6: a one-user store, updating id 1. -/
theorem updateUser_timestamps_witness :
    ∃ u2 db2,
      Shortlink.UpdateUser ⟨[⟨1, "alice", "a@x.com", "t0", "t0"⟩], 2⟩ true 1
        "alice2" "a2@x.com" "t1" = (.ok u2, db2) ∧
      u2.updated_at = "t1" ∧
      u2.created_at = (⟨1, "alice", "a@x.com", "t0", "t0"⟩ :
        Shortlink.User).created_at ∧
      u2.id = (⟨1, "alice", "a@x.com", "t0", "t0"⟩ : Shortlink.User).id ∧
      (∀ v ∈ (⟨[⟨1, "alice", "a@x.com", "t0", "t0"⟩], 2⟩ :
          Shortlink.DB).users, ∃ v2 ∈ db2.users,
        v2.id = v.id ∧ v2.created_at = v.created_at) ∧
      (∀ (conn : Bool) (un em nw : String),
        ∀ v ∈ (⟨[⟨1, "alice", "a@x.com", "t0", "t0"⟩], 2⟩ :
            Shortlink.DB).users,
        v ∈ ((Shortlink.CreateUser ⟨[⟨1, "alice", "a@x.com", "t0", "t0"⟩], 2⟩
          conn un em nw).2).users) ∧
      (∀ (conn : Bool) (id2 : Int),
        ∀ v ∈ ((Shortlink.DeleteUser ⟨[⟨1, "alice", "a@x.com", "t0", "t0"⟩], 2⟩
          conn id2).2).users,
        v ∈ (⟨[⟨1, "alice", "a@x.com", "t0", "t0"⟩], 2⟩ :
          Shortlink.DB).users) :=
  updateUser_timestamps ⟨[⟨1, "alice", "a@x.com", "t0", "t0"⟩], 2⟩ 1
    "alice2" "a2@x.com" "t1" ⟨1, "alice", "a@x.com", "t0", "t0"⟩
    rfl rfl (by simp)

/-! ## C3: ListUsers pagination -/

/-- C3: `ListUsers` succeeds and returns a sequence drawn from the stored
records (the `ORDER BY id` sequence is a permutation of the table), ordered
by identity ascending, of length at most `limit`, whose `i`-th element is
element `offset + i` of the full ordered sequence; and an offset at or
beyond the number of stored records yields the empty sequence, not an
error. -/
theorem listUsers_spec (db : Shortlink.DB) (limit offset : Nat) :
    ∃ l, Shortlink.ListUsers db true limit offset = .ok l ∧
      (Shortlink.sortById db.users).Perm db.users ∧
      List.Pairwise (fun a b : Shortlink.User => a.id ≤ b.id) l ∧
      l.length ≤ limit ∧
      (∀ i, (h1 : i < l.length) →
        ∃ h2 : offset + i < (Shortlink.sortById db.users).length,
          l.get ⟨i, h1⟩ = (Shortlink.sortById db.users).get ⟨offset + i, h2⟩) ∧
      (db.users.length ≤ offset → l = []) := by
  have hperm : (Shortlink.sortById db.users).Perm db.users :=
    List.mergeSort_perm db.users (fun a b => decide (a.id ≤ b.id))
  have hsorted0 :
      List.Pairwise (fun a b : Shortlink.User =>
        decide (a.id ≤ b.id) = true) (Shortlink.sortById db.users) :=
    @List.sorted_mergeSort Shortlink.User
      (fun a b => decide (a.id ≤ b.id))
      (fun a b c h1 h2 => by
        simp only [decide_eq_true_eq] at h1 h2 ⊢; omega)
      (fun a b => by
        simp only [Bool.or_eq_true, decide_eq_true_eq]; omega)
      db.users
  have hsorted :
      List.Pairwise (fun a b : Shortlink.User => a.id ≤ b.id)
        (Shortlink.sortById db.users) :=
    hsorted0.imp (fun h => by simpa using h)
  refine ⟨((Shortlink.sortById db.users).drop offset).take limit, rfl,
    hperm, ?_, List.length_take_le limit _, ?_, ?_⟩
  · exact List.Pairwise.sublist
      ((List.take_sublist _ _).trans (List.drop_sublist _ _)) hsorted
  · intro i h1
    have hlen1 : i < ((Shortlink.sortById db.users).drop offset).length :=
      lt_of_lt_of_le h1 (by
        rw [List.length_take]
        exact min_le_right _ _)
    have h2 : offset + i < (Shortlink.sortById db.users).length := by
      rw [List.length_drop] at hlen1
      omega
    refine ⟨h2, ?_⟩
    have ht := @List.getElem_take Shortlink.User
      ((Shortlink.sortById db.users).drop offset) limit i h1
    have hd := @List.getElem_drop Shortlink.User
      (Shortlink.sortById db.users) offset i hlen1
    simp only [List.get_eq_getElem]
    rw [ht, hd]
  · intro hoff
    have hlen : (Shortlink.sortById db.users).length ≤ offset := by
      rw [hperm.length_eq]
      exact hoff
    rw [List.drop_eq_nil_of_le hlen, List.take_nil]

/-- Witness for C3: three users, limit 2, offset 2 (past the first page). -/
theorem listUsers_spec_witness :
    ∃ l, Shortlink.ListUsers
        ⟨[⟨2, "b", "b@x", "t", "t"⟩, ⟨1, "a", "a@x", "t", "t"⟩,
          ⟨3, "c", "c@x", "t", "t"⟩], 4⟩ true 2 2 = .ok l ∧
      (Shortlink.sortById [⟨2, "b", "b@x", "t", "t"⟩, ⟨1, "a", "a@x", "t", "t"⟩,
          ⟨3, "c", "c@x", "t", "t"⟩]).Perm
        [⟨2, "b", "b@x", "t", "t"⟩, ⟨1, "a", "a@x", "t", "t"⟩,
          ⟨3, "c", "c@x", "t", "t"⟩] ∧
      List.Pairwise (fun a b : Shortlink.User => a.id ≤ b.id) l ∧
      l.length ≤ 2 ∧
      (∀ i, (h1 : i < l.length) →
        ∃ h2 : 2 + i < (Shortlink.sortById [⟨2, "b", "b@x", "t", "t"⟩,
            ⟨1, "a", "a@x", "t", "t"⟩, ⟨3, "c", "c@x", "t", "t"⟩]).length,
          l.get ⟨i, h1⟩ = (Shortlink.sortById [⟨2, "b", "b@x", "t", "t"⟩,
            ⟨1, "a", "a@x", "t", "t"⟩,
            ⟨3, "c", "c@x", "t", "t"⟩]).get ⟨2 + i, h2⟩) ∧
      (([⟨2, "b", "b@x", "t", "t"⟩, ⟨1, "a", "a@x", "t", "t"⟩,
          ⟨3, "c", "c@x", "t", "t"⟩] : List Shortlink.User).length ≤ 2 →
        l = []) :=
  listUsers_spec ⟨[⟨2, "b", "b@x", "t", "t"⟩, ⟨1, "a", "a@x", "t", "t"⟩,
    ⟨3, "c", "c@x", "t", "t"⟩], 4⟩ 2 2

/-! ## Decimal rendering lemmas (for the cache-key claims) -/

/-- Reading a decimal digit character back gives the digit. -/
theorem digitChar_val (d : Nat) (h : d < 10) :
    (Nat.digitChar d).toNat - 48 = d := by
  revert h; revert d; decide

/-- Decimal digit characters are never the minus sign. -/
theorem digitChar_ne_dash (d : Nat) (h : d < 10) : Nat.digitChar d ≠ '-' := by
  revert h; revert d; decide

/-- Folding the digits of `natDecimal n` back into a number recovers `n`:
the rendering really is the decimal representation. -/
theorem natDecimal_foldl (n : Nat) : ∀ acc : Nat,
    (Shortlink.natDecimal n).foldl (fun a c => a * 10 + (c.toNat - 48)) acc =
      acc * 10 ^ (Shortlink.natDecimal n).length + n := by
  induction n using Nat.strong_induction_on with
  | _ n ih =>
    intro acc
    by_cases h : n < 10
    · rw [Shortlink.natDecimal]
      simp only [dif_pos h, List.foldl, List.length_singleton, pow_one]
      rw [digitChar_val n h]
    · rw [Shortlink.natDecimal]
      simp only [dif_neg h]
      rw [List.foldl_append]
      rw [ih (n / 10) (Nat.div_lt_self (by omega) (by omega)) acc]
      simp only [List.foldl, List.length_append, List.length_singleton]
      rw [digitChar_val (n % 10) (Nat.mod_lt n (by omega))]
      have hmod : n % 10 + 10 * (n / 10) = n := Nat.mod_add_div n 10
      ring_nf
      omega

/-- Decimal rendering of naturals is injective. -/
theorem natDecimal_inj {a b : Nat}
    (h : Shortlink.natDecimal a = Shortlink.natDecimal b) : a = b := by
  have ha := natDecimal_foldl a 0
  have hb := natDecimal_foldl b 0
  rw [h] at ha
  rw [ha] at hb
  omega

/-- The rendering of a natural starts with a digit character. -/
theorem natDecimal_head (n : Nat) :
    ∃ d rest, d < 10 ∧ Shortlink.natDecimal n = Nat.digitChar d :: rest := by
  induction n using Nat.strong_induction_on with
  | _ n ih =>
    by_cases h : n < 10
    · exact ⟨n, [], h, by rw [Shortlink.natDecimal]; simp [h]⟩
    · obtain ⟨d, rest, hd, heq⟩ :=
        ih (n / 10) (Nat.div_lt_self (by omega) (by omega))
      exact ⟨d, rest ++ [Nat.digitChar (n % 10)], hd,
        by rw [Shortlink.natDecimal]; simp [h, heq]⟩

/-- Decimal rendering of integers (Go's `%d`) is injective. -/
theorem intDecimal_inj {i j : Int}
    (h : Shortlink.intDecimal i = Shortlink.intDecimal j) : i = j := by
  have hdata := congrArg String.data h
  by_cases hi : i < 0 <;> by_cases hj : j < 0 <;>
    simp only [Shortlink.intDecimal, hi, hj, if_true, if_false,
      String.data_append] at hdata
  · have hlist : Shortlink.natDecimal (-i).toNat =
        Shortlink.natDecimal (-j).toNat :=
      List.append_cancel_left hdata
    have := natDecimal_inj hlist
    omega
  · obtain ⟨d, rest, hd, heq⟩ := natDecimal_head j.toNat
    have h2 : ('-' :: Shortlink.natDecimal (-i).toNat) =
        Nat.digitChar d :: rest := by
      rw [← heq]; exact hdata
    injection h2 with h3 _
    exact absurd h3.symm (digitChar_ne_dash d hd)
  · obtain ⟨d, rest, hd, heq⟩ := natDecimal_head i.toNat
    have h2 : Nat.digitChar d :: rest =
        ('-' :: Shortlink.natDecimal (-j).toNat) := by
      rw [← heq]; exact hdata
    injection h2 with h3 _
    exact absurd h3 (digitChar_ne_dash d hd)
  · have hlist : Shortlink.natDecimal i.toNat =
        Shortlink.natDecimal j.toNat := hdata
    have := natDecimal_inj hlist
    omega

/-! ## C8: cache-key format and cached field set -/

/-- C8: the cache key for an identity is the fixed prefix `"user:"`
followed by the decimal representation of the identity (for a non-negative
identity, folding the rendered digits back recovers the identity, so the
suffix really is its decimal form; checked concretely at 42), and the
cached value serializes exactly the fields id, username, email,
created_at, updated_at. -/
theorem getUserCacheKey_format (id : Int) (u : Shortlink.User) :
    Shortlink.GetUserCacheKey id = "user:" ++ Shortlink.intDecimal id ∧
    (0 ≤ id → (Shortlink.intDecimal id).data.foldl
        (fun a c => a * 10 + (c.toNat - 48)) 0 = id.toNat) ∧
    Shortlink.GetUserCacheKey 42 = "user:42" ∧
    Shortlink.jsonFieldNames (Shortlink.marshalUser u) =
      ["id", "username", "email", "created_at", "updated_at"] := by
  refine ⟨rfl, ?_, ?_, rfl⟩
  · intro h0
    simp only [Shortlink.intDecimal, if_neg (not_lt.mpr h0)]
    rw [natDecimal_foldl id.toNat 0]
    simp
  · show "user:" ++ Shortlink.intDecimal 42 = "user:42"
    have h42 : Shortlink.natDecimal 42 = ['4', '2'] := by
      simp [Shortlink.natDecimal, Nat.digitChar]
    have h1 : Shortlink.intDecimal 42 = "42" := by
      simp only [Shortlink.intDecimal, if_neg (by decide : ¬(42 : Int) < 0)]
      rw [show (42 : Int).toNat = 42 from rfl, h42]
    rw [h1]
    decide

/-- Witness for C8 at identity 42 and a concrete user record: the decimal
fold hypothesis is discharged at a non-negative identity. -/
theorem getUserCacheKey_format_witness :
    (Shortlink.GetUserCacheKey 42 = "user:" ++ Shortlink.intDecimal 42 ∧
     (0 ≤ (42 : Int) → (Shortlink.intDecimal 42).data.foldl
        (fun a c => a * 10 + (c.toNat - 48)) 0 = (42 : Int).toNat) ∧
     Shortlink.GetUserCacheKey 42 = "user:42" ∧
     Shortlink.jsonFieldNames
       (Shortlink.marshalUser ⟨42, "alice", "a@x.com", "t0", "t0"⟩) =
       ["id", "username", "email", "created_at", "updated_at"]) ∧
    (0 : Int) ≤ 42 :=
  ⟨getUserCacheKey_format 42 ⟨42, "alice", "a@x.com", "t0", "t0"⟩, by decide⟩

/-! ## C10: cache keys never collide -/

/-- C10: cache-key derivation is deterministic (a function of the identity)
and injective: distinct identities always get distinct cache keys. -/
theorem getUserCacheKey_injective (id1 id2 : Int) (h : id1 ≠ id2) :
    Shortlink.GetUserCacheKey id1 ≠ Shortlink.GetUserCacheKey id2 := by
  intro heq
  apply h
  have hdata := congrArg String.data heq
  simp only [Shortlink.GetUserCacheKey, String.data_append] at hdata
  exact intDecimal_inj (String.ext (List.append_cancel_left hdata))

/-- Witness for C10 at identities 3 and 5. -/
theorem getUserCacheKey_injective_witness :
    (3 : Int) ≠ 5 ∧ Shortlink.GetUserCacheKey 3 ≠ Shortlink.GetUserCacheKey 5 :=
  ⟨by decide, getUserCacheKey_injective 3 5 (by decide)⟩

end Shortlink
